import Mathlib

set_option autoImplicit false

/-!
Shallow embedding of the background job layer of the dealership chat system:
the inventory-import worker, CRM-push worker (src/worker.js), the enqueue
options (src/lib/queues/inventoryImportQueue.ts), the job poll route
(src/app/api/admin/inventory/import/[jobId]/route.ts) and the CSV upload
route (POST handler bundled with src/app/admin/inventory/upload/page.tsx).
-/

namespace DealerJobs

/-- Prisma enum VehicleCondition as used by `toVehicleCondition` in worker.js. -/
inductive VehicleCondition
  | NEW
  | USED
  | CERTIFIED
deriving DecidableEq, Repr

/-- Prisma enum VehicleAvailability; the import only manipulates IN_STOCK and
SOLD, a third state stands for the remaining enum members. -/
inductive VehicleAvailability
  | IN_STOCK
  | SOLD
  | PENDING
deriving DecidableEq, Repr

/-- One parsed CSV row as enqueued in the job payload
(InventoryImportRow in src/lib/queues/inventoryImportQueue.ts).
`vin` is `Option String` because worker.js guards with a typeof check:
a missing value normalizes to the empty string. -/
structure Row where
  vin : Option String := none
  stockNumber : Option String := none
  year : Option Int := none
  make : Option String := none
  model : Option String := none
  trim : Option String := none
  condition : Option String := none
  price : Option Int := none
  mileage : Option Int := none
  color : Option String := none
  bodyType : Option String := none
  images : List String := []
deriving DecidableEq, Repr

/-- A persisted vehicle catalog entry (Prisma model `vehicle` as written by
worker.js). Timestamps are a logical clock: the store stamps `updatedAt`
at each write and `createdAt` once at creation. -/
structure Vehicle where
  vin : String
  dealershipId : String
  stockNumber : Option String := none
  year : Option Int := none
  make : Option String := none
  model : Option String := none
  trim : Option String := none
  condition : VehicleCondition := VehicleCondition.USED
  price : Option Int := none
  mileage : Option Int := none
  exteriorColor : Option String := none
  bodyType : Option String := none
  images : List String := []
  availability : VehicleAvailability := VehicleAvailability.IN_STOCK
  featured : Bool := false
  createdAt : Nat := 0
  updatedAt : Nat := 0
deriving DecidableEq, Repr

/-- JS `String.prototype.toUpperCase`, per character. -/
def jsToUpper (s : String) : String :=
  String.mk (s.data.map Char.toUpper)

/-- JS `String.prototype.trim`: drop leading and trailing whitespace. -/
def jsTrim (s : String) : String :=
  String.mk
    (((s.data.dropWhile Char.isWhitespace).reverse.dropWhile Char.isWhitespace).reverse)

/-- worker.js `normalizeVin`: trim and uppercase when the value is a string,
otherwise the empty string. -/
def normalizeVin : Option String → String
  | some s => jsToUpper (jsTrim s)
  | none => ""

/-- worker.js `toVehicleCondition`: falsy input (absent or empty string) gives
null; otherwise trim + uppercase and match against NEW / USED / CERTIFIED / CPO. -/
def toVehicleCondition : Option String → Option VehicleCondition
  | none => none
  | some s =>
    if s = "" then none
    else
      let normalized := jsToUpper (jsTrim s)
      if normalized = "NEW" then some VehicleCondition.NEW
      else if normalized = "USED" then some VehicleCondition.USED
      else if normalized = "CERTIFIED" ∨ normalized = "CPO" then some VehicleCondition.CERTIFIED
      else none

/-- How a JS template literal renders the raw condition value inside the
row error message: an absent value prints as "undefined". -/
def condDisplay : Option String → String
  | none => "undefined"
  | some s => s

/-- The `data` object built per row in worker.js (descriptive fields plus
forced IN_STOCK availability). -/
structure UpsertData where
  dealershipId : String
  stockNumber : Option String
  year : Option Int
  make : Option String
  model : Option String
  trim : Option String
  condition : VehicleCondition
  price : Option Int
  mileage : Option Int
  exteriorColor : Option String
  bodyType : Option String
  images : List String
  availability : VehicleAvailability
deriving DecidableEq, Repr

def mkUpsertData (dealershipId : String) (raw : Row) (condition : VehicleCondition)
    (priceDecimal : Option Int) (images : List String) : UpsertData :=
  { dealershipId := dealershipId
    stockNumber := raw.stockNumber
    year := raw.year
    make := raw.make
    model := raw.model
    trim := raw.trim
    condition := condition
    price := priceDecimal
    mileage := raw.mileage
    exteriorColor := raw.color
    bodyType := raw.bodyType
    images := images
    availability := VehicleAvailability.IN_STOCK }

/-- The `update` branch of `prisma.vehicle.upsert`: overwrite the descriptive
fields and availability, keep vin, featured and createdAt, stamp updatedAt. -/
def applyVehicleUpdate (d : UpsertData) (t : Nat) (v : Vehicle) : Vehicle :=
  { v with
    dealershipId := d.dealershipId
    stockNumber := d.stockNumber
    year := d.year
    make := d.make
    model := d.model
    trim := d.trim
    condition := d.condition
    price := d.price
    mileage := d.mileage
    exteriorColor := d.exteriorColor
    bodyType := d.bodyType
    images := d.images
    availability := d.availability
    updatedAt := t }

/-- The `create` branch of `prisma.vehicle.upsert`: the data fields plus the
vin and `featured = false`; both timestamps are stamped with the write time. -/
def createVehicle (d : UpsertData) (vin : String) (t : Nat) : Vehicle :=
  { vin := vin
    dealershipId := d.dealershipId
    stockNumber := d.stockNumber
    year := d.year
    make := d.make
    model := d.model
    trim := d.trim
    condition := d.condition
    price := d.price
    mileage := d.mileage
    exteriorColor := d.exteriorColor
    bodyType := d.bodyType
    images := d.images
    availability := d.availability
    featured := false
    createdAt := t
    updatedAt := t }

/-- The call `prisma.vehicle.upsert` with `where: { vin }` against the
store modelled as a list of entries: `vin` is the unique key of the whole
table, so the first (under the unique constraint: only) entry with that vin
is updated in place; when absent a fresh entry is appended. Returns the
written entry alongside the new store, as Prisma returns the written record. -/
def vehicleUpsert (d : UpsertData) (vin : String) (t : Nat) :
    List Vehicle → List Vehicle × Vehicle
  | [] =>
    let v := createVehicle d vin t
    ([v], v)
  | w :: rest =>
    if w.vin = vin then
      let w2 := applyVehicleUpdate d t w
      (w2 :: rest, w2)
    else
      let r := vehicleUpsert d vin t rest
      (w :: r.1, r.2)

/-- One entry of the result's `errors` array: 1-based row index and message. -/
structure RowError where
  row : Nat
  error : String
deriving DecidableEq, Repr

/-- One `job.updateProgress` payload. -/
structure Progress where
  processed : Nat
  total : Nat
deriving DecidableEq, Repr

/-- The mutable state of the inventory worker while looping over rows,
plus the logical clock and the chronological log of published progress. -/
structure ImportState where
  db : List Vehicle
  errors : List RowError
  seenVins : List String
  created : Nat
  updated : Nat
  processed : Nat
  clock : Nat
  progressLog : List Progress
deriving DecidableEq, Repr

/-- The `seenVins.add vin` call on the Set, modelled as append-if-absent. -/
def addSeen (seen : List String) (vin : String) : List String :=
  if vin ∈ seen then seen else seen ++ [vin]

/-- The try-block of one loop iteration of the inventory worker with the
catch inlined per throw site: Missing VIN throws before the vin is added to
seenVins; an invalid condition throws after; otherwise the row is upserted
and classified created/updated by comparing the written entry's timestamps. -/
def rowBody (dealershipId : String) (s : ImportState) (index : Nat) (raw : Row) : ImportState :=
  let vin := normalizeVin raw.vin
  if vin = "" then
    { s with errors := s.errors ++ [⟨index + 1, "Missing VIN"⟩] }
  else
    let s1 := { s with seenVins := addSeen s.seenVins vin }
    match toVehicleCondition raw.condition with
    | none =>
      { s1 with errors := s1.errors ++
          [⟨index + 1, "Invalid condition \"" ++ condDisplay raw.condition ++ "\""⟩] }
    | some condition =>
      let priceDecimal := raw.price
      let images := raw.images.filter (fun u => u != "")
      let up := vehicleUpsert (mkUpsertData dealershipId raw condition priceDecimal images)
        vin s1.clock s1.db
      if up.2.createdAt = up.2.updatedAt then
        { s1 with db := up.1, created := s1.created + 1 }
      else
        { s1 with db := up.1, updated := s1.updated + 1 }

/-- One full loop iteration: increment `processed` first, run the guarded row
body, then publish `{ processed, total: totalRows }` and advance the clock. -/
def rowStep (dealershipId : String) (totalRows : Nat) (s : ImportState) (index : Nat)
    (raw : Row) : ImportState :=
  let s1 := { s with processed := s.processed + 1 }
  let s2 := rowBody dealershipId s1 index raw
  { s2 with
    progressLog := s2.progressLog ++ [⟨s1.processed, totalRows⟩]
    clock := s2.clock + 1 }

/-- The row loop, carrying the 0-based index used for 1-based error reporting. -/
def runRows (dealershipId : String) (totalRows : Nat) :
    ImportState → Nat → List Row → ImportState
  | s, _, [] => s
  | s, index, raw :: rest =>
    runRows dealershipId totalRows (rowStep dealershipId totalRows s index raw) (index + 1) rest

def initState (db : List Vehicle) (t0 : Nat) : ImportState :=
  { db := db
    errors := []
    seenVins := []
    created := 0
    updated := 0
    processed := 0
    clock := t0
    progressLog := [] }

/-- The reconciliation `prisma.vehicle.updateMany`: every entry of this
dealership that is currently IN_STOCK and whose vin is not in seenVins has
availability set to SOLD; the second component is the affected count. -/
def reconcile (dealershipId : String) (seen : List String) :
    List Vehicle → List Vehicle × Nat
  | [] => ([], 0)
  | v :: rest =>
    let r := reconcile dealershipId seen rest
    if v.dealershipId = dealershipId ∧ v.availability = VehicleAvailability.IN_STOCK ∧
        v.vin ∉ seen then
      ({ v with availability := VehicleAvailability.SOLD } :: r.1, r.2 + 1)
    else
      (v :: r.1, r.2)

/-- The job's return value. -/
structure ImportResult where
  processed : Nat
  total : Nat
  created : Nat
  updated : Nat
  errors : List RowError
  markedSold : Nat
deriving DecidableEq, Repr

/-- Everything observable about one run of the inventory worker: the returned
Import Result, the final catalog store, the published progress snapshots in
order, and the clock after the run. -/
structure WorkerOutput where
  result : ImportResult
  db : List Vehicle
  progressLog : List Progress
  clock : Nat
deriving DecidableEq, Repr

/-- The inventory-import processor of worker.js: loop over the rows, then
reconcile when `markMissingAsSold` is set and at least one vin was seen,
then return the Import Result. -/
def inventoryWorker (dealershipId : String) (rows : List Row) (markMissingAsSold : Bool)
    (totalRows : Nat) (db : List Vehicle) (t0 : Nat) : WorkerOutput :=
  let s := runRows dealershipId totalRows (initState db t0) 0 rows
  let rec2 :=
    if markMissingAsSold = true ∧ s.seenVins ≠ [] then reconcile dealershipId s.seenVins s.db
    else (s.db, 0)
  { result :=
      { processed := s.processed
        total := totalRows
        created := s.created
        updated := s.updated
        errors := s.errors
        markedSold := rec2.2 }
    db := rec2.1
    progressLog := s.progressLog
    clock := s.clock }

/-- The per-job queue options passed by `queue.add`. -/
structure JobOptions where
  attempts : Nat
  removeOnComplete : Bool
  removeOnFail : Bool
deriving DecidableEq, Repr

/-- The options `enqueueInventoryImport` passes in
src/lib/queues/inventoryImportQueue.ts. -/
def enqueueInventoryImportOpts : JobOptions :=
  { attempts := 1
    removeOnComplete := true
    removeOnFail := false }

inductive JobState
  | waiting
  | active
  | completed
  | failed
deriving DecidableEq, Repr

/-- A job record as stored by the queue backend and read back by `getJob`. -/
structure StoredJob where
  id : String
  state : JobState
  progress : Progress
  returnvalue : Option ImportResult
deriving DecidableEq, Repr

/-- Modelled from the spec: the queue backend's retention policy (§4.1) for the
external queue client, which is not part of src. A job whose options carry
`removeOnComplete = true` is deleted from the backing store when it completes,
so a later `getJob` by its identifier finds nothing; otherwise the record is
retained in the completed state with its return value. -/
def storedAfterCompletion (opts : JobOptions) (job : StoredJob)
    (result : ImportResult) : Option StoredJob :=
  if opts.removeOnComplete then none
  else some { job with state := JobState.completed, returnvalue := some result }

/-- The response of GET /api/admin/inventory/import/[jobId]. -/
inductive PollResponse
  | notFound
  | ok (id : String) (state : JobState) (progress : Progress) (result : Option ImportResult)
deriving DecidableEq, Repr

/-- The poll route handler: 404 when `getJob` finds nothing, otherwise the
job's state, progress and stored return value. -/
def pollImportJob : Option StoredJob → PollResponse
  | none => PollResponse.notFound
  | some job => PollResponse.ok job.id job.state job.progress job.returnvalue

/-- The lead record fields the crm-push worker touches. -/
structure Lead where
  id : String
  pushedToCRM : Bool
deriving DecidableEq, Repr

/-- Outcome of one crm-push processing attempt: the error the processor
re-raises (if any) and the lead record after the attempt. -/
structure CrmOutcome where
  failed : Option String
  lead : Lead
deriving DecidableEq, Repr

/-- Maximum attempts configured for the crm-push consumer in worker.js. -/
def crmMaxAttempts : Nat := 3

/-- One attempt of the crm-push processor in worker.js, for a lead that was
found: on push success mark `pushedToCRM = true` and return success; on push
failure, when `attemptsMade >= 3` (the final allowed attempt) first write
`pushedToCRM = false`, then re-raise the error. `attemptsMade` is the 1-based
number of the attempt being processed. -/
def crmProcessAttempt (lead : Lead) (pushFails : Bool) (attemptsMade : Nat) : CrmOutcome :=
  if pushFails then
    { failed := some "CRM push failed"
      lead := if attemptsMade ≥ 3 then { lead with pushedToCRM := false } else lead }
  else
    { failed := none
      lead := { lead with pushedToCRM := true } }

/-- Modelled from the spec: the queue retry loop (§4.2) of the external queue
runtime — a crm-push job whose push always fails is attempted
`crmMaxAttempts` times, `attemptsMade` counting 1, 2, 3 across the attempts;
the lead record accumulates the writes of each attempt. -/
def crmExhaustAttempts (lead : Lead) : Lead :=
  (List.range crmMaxAttempts).foldl
    (fun l i => (crmProcessAttempt l true (i + 1)).lead) lead

/-- The upload route helper `normalizeColumn`: trim, uppercase, strip all
whitespace. -/
def normalizeColumn (column : String) : String :=
  String.mk ((jsToUpper (jsTrim column)).data.filter (fun c => !c.isWhitespace))

def REQUIRED_COLUMNS : List String :=
  ["VIN", "Stock#", "Year", "Make", "Model", "Trim", "Condition", "Price",
   "Mileage", "Color", "BodyType", "Images"]

/-- One parsed CSV record: the column-name / cell pairs in column order. -/
abbrev CsvRecord := List (String × String)

/-- The header row: keys of the first record. -/
def headerColumns (records : List CsvRecord) : List String :=
  (records.headD []).map Prod.fst

/-- The route's missing-column computation: a required column counts as
present when some header, once normalized, equals the required name verbatim
(the required name itself is NOT normalized in the source). -/
def missingColumns (headers : List String) : List String :=
  REQUIRED_COLUMNS.filter (fun column => !(headers.any (fun h => normalizeColumn h == column)))

/-- The upload route helper `rowMatch`: find the cell whose normalized column name
equals the normalized target, returning its trimmed value. -/
def rowMatch (record : CsvRecord) (target : String) : Option String :=
  (record.find? (fun e => normalizeColumn e.1 == normalizeColumn target)).map
    (fun e => jsTrim e.2)

/-- JS truthiness of the value `rowMatch` returned at the `if (!vin)` guard:
null and the empty string are falsy. -/
def vinPresent : Option String → Bool
  | none => false
  | some s => s != ""

/-- JS `Number(...)` with the `Number.isFinite` guard, on the integer-valued
cells the import uses: `Number(null)` and `Number("")` are 0 (finite), a
numeral parses, anything else is NaN and is dropped to undefined. -/
def csvNumber : Option String → Option Int
  | none => some 0
  | some s => if s = "" then some 0 else s.toInt?

/-- Splitting a character list at commas. -/
def splitCommaAux : List Char → List Char → List (List Char)
  | [], acc => [acc.reverse]
  | c :: rest, acc =>
    if c = ',' then acc.reverse :: splitCommaAux rest []
    else splitCommaAux rest (c :: acc)

/-- Images cell: split on commas, trim each part, drop empties. -/
def parseImages : Option String → List String
  | none => []
  | some s =>
    ((splitCommaAux s.data []).map (fun l => jsTrim (String.mk l))).filter
      (fun u => u != "")

structure SkippedRow where
  row : Nat
  reason : String
deriving DecidableEq, Repr

/-- The row object the route builds from one CSV record. -/
def buildRow (record : CsvRecord) (vin : String) : Row :=
  { vin := some vin
    stockNumber := rowMatch record "Stock#"
    year := csvNumber (rowMatch record "Year")
    make := rowMatch record "Make"
    model := rowMatch record "Model"
    trim := rowMatch record "Trim"
    condition := rowMatch record "Condition"
    price := csvNumber (rowMatch record "Price")
    mileage := csvNumber (rowMatch record "Mileage")
    color := rowMatch record "Color"
    bodyType := rowMatch record "BodyType"
    images := parseImages (rowMatch record "Images") }

/-- The route's row-building loop: rows without a truthy VIN cell are skipped
with a 1-based row number, the rest become job rows. -/
def buildRows : List CsvRecord → Nat → List Row × List SkippedRow
  | [], _ => ([], [])
  | record :: rest, index =>
    let r := buildRows rest (index + 1)
    match rowMatch record "VIN" with
    | none => (r.1, ⟨index + 1, "Missing VIN"⟩ :: r.2)
    | some vin =>
      if vin = "" then (r.1, ⟨index + 1, "Missing VIN"⟩ :: r.2)
      else (buildRow record vin :: r.1, r.2)

/-- The enqueued payload (InventoryImportJobData). -/
structure InventoryImportJobData where
  dealershipId : String
  rows : List Row
  markMissingAsSold : Bool
  totalRows : Nat
deriving DecidableEq, Repr

/-- The decision of POST /api/admin/inventory/import. -/
inductive UploadOutcome
  | badRequest (message : String)
  | enqueued (payload : InventoryImportJobData)
deriving DecidableEq, Repr

/-- The upload POST handler after form validation: a CSV that failed to parse
(none), an empty record set, missing required columns, or zero surviving rows
is rejected with HTTP 400 before any job is enqueued; otherwise the job is
enqueued with `totalRows = rows.length`. -/
def uploadPost (dealershipId : String) (markMissingAsSold : Bool)
    (parsedCsv : Option (List CsvRecord)) : UploadOutcome :=
  match parsedCsv with
  | none => UploadOutcome.badRequest "Unable to parse CSV file"
  | some rawRecords =>
    if rawRecords.isEmpty then UploadOutcome.badRequest "CSV file contains no rows"
    else if missingColumns (headerColumns rawRecords) ≠ [] then
      UploadOutcome.badRequest "Missing required columns"
    else
      let built := buildRows rawRecords 0
      if built.1.isEmpty then
        UploadOutcome.badRequest "All rows were invalid. Please review the CSV format."
      else
        UploadOutcome.enqueued
          { dealershipId := dealershipId
            rows := built.1
            markMissingAsSold := markMissingAsSold
            totalRows := built.1.length }

/-- The row error a given 0-based row can raise: the two throw sites of the
row body (missing VIN, invalid condition); a row passing both is written and
raises nothing. -/
def rowErrorOf (index : Nat) (raw : Row) : Option RowError :=
  if normalizeVin raw.vin = "" then some ⟨index + 1, "Missing VIN"⟩
  else if toVehicleCondition raw.condition = none then
    some ⟨index + 1, "Invalid condition \"" ++ condDisplay raw.condition ++ "\""⟩
  else none

/-! Concrete inputs used by witnesses and counterexamples. -/

/-- A completed import job record, as it would be stored were it retained. -/
def sampleImportJob : StoredJob :=
  { id := "42"
    state := JobState.active
    progress := ⟨3, 3⟩
    returnvalue := none }

def sampleImportResult : ImportResult :=
  { processed := 3, total := 3, created := 2, updated := 1, errors := [], markedSold := 0 }

/-- A catalog entry owned by dealership E. -/
def otherDealerEntry : Vehicle :=
  { vin := "VINX"
    dealershipId := "E"
    availability := VehicleAvailability.IN_STOCK
    createdAt := 0
    updatedAt := 0 }

/-- A row of dealership D's import carrying the VIN of `otherDealerEntry`. -/
def takeoverRow : Row := { vin := some "VINX", condition := some "Used" }

/-- The two-entry catalog of the reconciliation scenario: V1 and V2 both
IN_STOCK for dealership D. -/
def v1entry : Vehicle :=
  { vin := "V1", dealershipId := "D", availability := VehicleAvailability.IN_STOCK }

def v2entry : Vehicle :=
  { vin := "V2", dealershipId := "D", availability := VehicleAvailability.IN_STOCK }

def v1row : Row := { vin := some "V1", condition := some "Used" }

/-- A row whose VIN is valid but whose condition is not. -/
def badCondRow : Row := { vin := some "V9", condition := some "hybrid" }

/-- An IN_STOCK catalog entry carrying the VIN of `badCondRow`. -/
def v9entry : Vehicle :=
  { vin := "V9", dealershipId := "D", availability := VehicleAvailability.IN_STOCK }

/-- Idempotence-scenario rows: same VIN up to trim + case. -/
def idemRow1 : Row := { vin := some "  abc123  ", condition := some "New" }

def idemRow2 : Row := { vin := some "ABC123", condition := some "new" }

/-- The three-row batch of the end-to-end example in the spec. -/
def specRows : List Row :=
  [{ vin := some "1FA", condition := some "New", price := some 25000 },
   { vin := some "", condition := some "Used" },
   { vin := some "2FB", condition := some "bogus" }]

/-- A CSV record whose header is exactly the documented required columns. -/
def canonicalCsvRecord : CsvRecord :=
  [("VIN", "1FAHP3K20CL123456"), ("Stock#", "S1"), ("Year", "2020"), ("Make", "Ford"),
   ("Model", "Focus"), ("Trim", "SE"), ("Condition", "New"), ("Price", "25000"),
   ("Mileage", "10"), ("Color", "Blue"), ("BodyType", "Sedan"), ("Images", "")]

/-- The upsert performed for a row that passed validation, at the state's
clock against the state's store. -/
def rowUpsert (d : String) (raw : Row) (c : VehicleCondition) (s : ImportState) :
    List Vehicle × Vehicle :=
  vehicleUpsert (mkUpsertData d raw c raw.price (raw.images.filter (fun u => u != "")))
    (normalizeVin raw.vin) s.clock s.db

/-! Helper lemmas about the row loop. -/

theorem rowBody_eq_error_vin (d : String) (s : ImportState) (idx : Nat) (raw : Row)
    (h : normalizeVin raw.vin = "") :
    rowBody d s idx raw = { s with errors := s.errors ++ [⟨idx + 1, "Missing VIN"⟩] } := by
  simp [rowBody, h]

theorem rowBody_eq_error_cond (d : String) (s : ImportState) (idx : Nat) (raw : Row)
    (h : normalizeVin raw.vin ≠ "") (h2 : toVehicleCondition raw.condition = none) :
    rowBody d s idx raw =
      { s with
        seenVins := addSeen s.seenVins (normalizeVin raw.vin)
        errors := s.errors ++
          [⟨idx + 1, "Invalid condition \"" ++ condDisplay raw.condition ++ "\""⟩] } := by
  simp [rowBody, h, h2]

theorem rowBody_eq_upsert (d : String) (s : ImportState) (idx : Nat) (raw : Row)
    (c : VehicleCondition) (h : normalizeVin raw.vin ≠ "")
    (h2 : toVehicleCondition raw.condition = some c) :
    rowBody d s idx raw =
      if (rowUpsert d raw c s).2.createdAt = (rowUpsert d raw c s).2.updatedAt then
        { s with
          seenVins := addSeen s.seenVins (normalizeVin raw.vin)
          db := (rowUpsert d raw c s).1
          created := s.created + 1 }
      else
        { s with
          seenVins := addSeen s.seenVins (normalizeVin raw.vin)
          db := (rowUpsert d raw c s).1
          updated := s.updated + 1 } := by
  simp [rowBody, rowUpsert, h, h2]

theorem rowBody_processed (d : String) (s : ImportState) (idx : Nat) (raw : Row) :
    (rowBody d s idx raw).processed = s.processed := by
  by_cases h : normalizeVin raw.vin = ""
  · rw [rowBody_eq_error_vin d s idx raw h]
  · cases h2 : toVehicleCondition raw.condition with
    | none => rw [rowBody_eq_error_cond d s idx raw h h2]
    | some c => rw [rowBody_eq_upsert d s idx raw c h h2]; split <;> rfl

theorem rowBody_progressLog (d : String) (s : ImportState) (idx : Nat) (raw : Row) :
    (rowBody d s idx raw).progressLog = s.progressLog := by
  by_cases h : normalizeVin raw.vin = ""
  · rw [rowBody_eq_error_vin d s idx raw h]
  · cases h2 : toVehicleCondition raw.condition with
    | none => rw [rowBody_eq_error_cond d s idx raw h h2]
    | some c => rw [rowBody_eq_upsert d s idx raw c h h2]; split <;> rfl

theorem rowBody_clock (d : String) (s : ImportState) (idx : Nat) (raw : Row) :
    (rowBody d s idx raw).clock = s.clock := by
  by_cases h : normalizeVin raw.vin = ""
  · rw [rowBody_eq_error_vin d s idx raw h]
  · cases h2 : toVehicleCondition raw.condition with
    | none => rw [rowBody_eq_error_cond d s idx raw h h2]
    | some c => rw [rowBody_eq_upsert d s idx raw c h h2]; split <;> rfl

theorem rowBody_errors (d : String) (s : ImportState) (idx : Nat) (raw : Row) :
    (rowBody d s idx raw).errors = s.errors ++ (rowErrorOf idx raw).toList := by
  by_cases h : normalizeVin raw.vin = ""
  · rw [rowBody_eq_error_vin d s idx raw h]; simp [rowErrorOf, h]
  · cases h2 : toVehicleCondition raw.condition with
    | none => rw [rowBody_eq_error_cond d s idx raw h h2]; simp [rowErrorOf, h, h2]
    | some c =>
      rw [rowBody_eq_upsert d s idx raw c h h2]
      split <;> simp [rowErrorOf, h, h2]

theorem rowBody_sum (d : String) (s : ImportState) (idx : Nat) (raw : Row) :
    (rowBody d s idx raw).created + (rowBody d s idx raw).updated +
      (rowBody d s idx raw).errors.length =
    s.created + s.updated + s.errors.length + 1 := by
  by_cases h : normalizeVin raw.vin = ""
  · rw [rowBody_eq_error_vin d s idx raw h]; simp; omega
  · cases h2 : toVehicleCondition raw.condition with
    | none => rw [rowBody_eq_error_cond d s idx raw h h2]; simp; omega
    | some c =>
      rw [rowBody_eq_upsert d s idx raw c h h2]
      split <;> simp <;> omega

theorem rowStep_processed (d : String) (T : Nat) (s : ImportState) (idx : Nat) (raw : Row) :
    (rowStep d T s idx raw).processed = s.processed + 1 := by
  simp [rowStep, rowBody_processed]

theorem rowStep_progressLog (d : String) (T : Nat) (s : ImportState) (idx : Nat) (raw : Row) :
    (rowStep d T s idx raw).progressLog = s.progressLog ++ [⟨s.processed + 1, T⟩] := by
  simp [rowStep, rowBody_progressLog]

theorem rowStep_errors (d : String) (T : Nat) (s : ImportState) (idx : Nat) (raw : Row) :
    (rowStep d T s idx raw).errors = s.errors ++ (rowErrorOf idx raw).toList := by
  have h := rowBody_errors d { s with processed := s.processed + 1 } idx raw
  simp_all [rowStep]

theorem rowStep_sum (d : String) (T : Nat) (s : ImportState) (idx : Nat) (raw : Row) :
    (rowStep d T s idx raw).created + (rowStep d T s idx raw).updated +
      (rowStep d T s idx raw).errors.length =
    s.created + s.updated + s.errors.length + 1 := by
  have h := rowBody_sum d { s with processed := s.processed + 1 } idx raw
  simp_all [rowStep]

theorem runRows_processed (d : String) (T : Nat) (rows : List Row) :
    ∀ (s : ImportState) (idx : Nat),
      (runRows d T s idx rows).processed = s.processed + rows.length := by
  induction rows with
  | nil => intro s idx; simp [runRows]
  | cons raw rest ih =>
    intro s idx
    rw [runRows, ih, rowStep_processed]
    simp
    omega

theorem runRows_sum (d : String) (T : Nat) (rows : List Row) :
    ∀ (s : ImportState) (idx : Nat),
      (runRows d T s idx rows).created + (runRows d T s idx rows).updated +
        (runRows d T s idx rows).errors.length =
      s.created + s.updated + s.errors.length + rows.length := by
  induction rows with
  | nil => intro s idx; simp [runRows]
  | cons raw rest ih =>
    intro s idx
    rw [runRows, ih]
    have h := rowStep_sum d T s idx raw
    simp
    omega

theorem runRows_errors (d : String) (T : Nat) (rows : List Row) :
    ∀ (s : ImportState) (idx : Nat),
      (runRows d T s idx rows).errors =
        s.errors ++ (List.enumFrom idx rows).filterMap (fun p => rowErrorOf p.1 p.2) := by
  induction rows with
  | nil => intro s idx; simp [runRows]
  | cons raw rest ih =>
    intro s idx
    rw [runRows, ih, rowStep_errors]
    cases h : rowErrorOf idx raw <;> simp [List.enumFrom, h]

theorem runRows_progressLog (d : String) (T : Nat) (rows : List Row) :
    ∀ (s : ImportState) (idx : Nat),
      (runRows d T s idx rows).progressLog =
        s.progressLog ++
          (List.range' (s.processed + 1) rows.length).map (fun p => ⟨p, T⟩) := by
  induction rows with
  | nil => intro s idx; simp [runRows]
  | cons raw rest ih =>
    intro s idx
    rw [runRows, ih, rowStep_progressLog, rowStep_processed]
    rw [List.length_cons, List.range'_succ, List.map_cons]
    simp

/-! Reconciliation lemmas. -/

theorem reconcile_fst (d : String) (seen : List String) (db : List Vehicle) :
    (reconcile d seen db).1 =
      db.map (fun v =>
        if v.dealershipId = d ∧ v.availability = VehicleAvailability.IN_STOCK ∧ v.vin ∉ seen
        then { v with availability := VehicleAvailability.SOLD } else v) := by
  induction db with
  | nil => rfl
  | cons v rest ih =>
    rw [reconcile]
    split
    · rename_i hc
      rw [List.map_cons, if_pos hc, ← ih]
    · rename_i hc
      rw [List.map_cons, if_neg hc, ← ih]

theorem reconcile_snd (d : String) (seen : List String) (db : List Vehicle) :
    (reconcile d seen db).2 =
      db.countP (fun v =>
        decide (v.dealershipId = d ∧ v.availability = VehicleAvailability.IN_STOCK ∧
          v.vin ∉ seen)) := by
  induction db with
  | nil => rfl
  | cons v rest ih =>
    rw [reconcile, List.countP_cons]
    split <;> rename_i hc <;> simp_all

/-! Upsert lemmas. -/

theorem applyVehicleUpdate_vin (d : UpsertData) (t : Nat) (v : Vehicle) :
    (applyVehicleUpdate d t v).vin = v.vin := rfl

theorem applyVehicleUpdate_dealershipId (d : UpsertData) (t : Nat) (v : Vehicle) :
    (applyVehicleUpdate d t v).dealershipId = d.dealershipId := rfl

theorem applyVehicleUpdate_availability (d : UpsertData) (t : Nat) (v : Vehicle) :
    (applyVehicleUpdate d t v).availability = d.availability := rfl

theorem applyVehicleUpdate_createdAt (d : UpsertData) (t : Nat) (v : Vehicle) :
    (applyVehicleUpdate d t v).createdAt = v.createdAt := rfl

theorem applyVehicleUpdate_updatedAt (d : UpsertData) (t : Nat) (v : Vehicle) :
    (applyVehicleUpdate d t v).updatedAt = t := rfl

theorem createVehicle_timestamps (d : UpsertData) (vin : String) (t : Nat) :
    (createVehicle d vin t).createdAt = t ∧ (createVehicle d vin t).updatedAt = t ∧
      (createVehicle d vin t).vin = vin ∧
      (createVehicle d vin t).dealershipId = d.dealershipId ∧
      (createVehicle d vin t).featured = false := by
  exact ⟨rfl, rfl, rfl, rfl, rfl⟩

theorem vehicleUpsert_absent (d : UpsertData) (vin : String) (t : Nat) (db : List Vehicle)
    (h : ∀ w ∈ db, w.vin ≠ vin) :
    vehicleUpsert d vin t db = (db ++ [createVehicle d vin t], createVehicle d vin t) := by
  induction db with
  | nil => rfl
  | cons w rest ih =>
    have hw : w.vin ≠ vin := h w (List.mem_cons_self w rest)
    rw [vehicleUpsert, if_neg hw, ih (fun u hu => h u (List.mem_cons_of_mem w hu))]
    exact rfl

theorem vehicleUpsert_append_absent (d : UpsertData) (vin : String) (t : Nat)
    (db : List Vehicle) (v0 : Vehicle) (h : ∀ w ∈ db, w.vin ≠ vin) (h0 : v0.vin = vin) :
    vehicleUpsert d vin t (db ++ [v0]) =
      (db ++ [applyVehicleUpdate d t v0], applyVehicleUpdate d t v0) := by
  induction db with
  | nil => simp [vehicleUpsert, h0]
  | cons w rest ih =>
    have hw : w.vin ≠ vin := h w (List.mem_cons_self w rest)
    rw [List.cons_append, vehicleUpsert, if_neg hw,
      ih (fun u hu => h u (List.mem_cons_of_mem w hu))]
    exact rfl

theorem map_upd_id (d : UpsertData) (vin : String) (t : Nat) (l : List Vehicle)
    (h : ∀ u ∈ l, u.vin ≠ vin) :
    l.map (fun u => if u.vin = vin then applyVehicleUpdate d t u else u) = l := by
  induction l with
  | nil => rfl
  | cons w rest ih =>
    rw [List.map_cons, if_neg (h w (List.mem_cons_self w rest)),
      ih (fun u hu => h u (List.mem_cons_of_mem w hu))]

theorem vehicleUpsert_present (d : UpsertData) (vin : String) (t : Nat)
    (db : List Vehicle) (w : Vehicle) (hnd : (db.map Vehicle.vin).Nodup)
    (hw : w ∈ db) (hv : w.vin = vin) :
    vehicleUpsert d vin t db =
      (db.map (fun u => if u.vin = vin then applyVehicleUpdate d t u else u),
       applyVehicleUpdate d t w) := by
  induction db with
  | nil => cases hw
  | cons x rest ih =>
    rw [List.map_cons] at hnd
    have hnd2 : (rest.map Vehicle.vin).Nodup := hnd.of_cons
    have hx : x.vin ∉ rest.map Vehicle.vin := (List.nodup_cons.mp hnd).1
    by_cases hxv : x.vin = vin
    · have hwx : w = x := by
        rcases List.mem_cons.mp hw with h1 | h1
        · exact h1
        · exfalso
          apply hx
          rw [hxv, ← hv]
          exact List.mem_map_of_mem Vehicle.vin h1
      rw [vehicleUpsert, if_pos hxv, List.map_cons, if_pos hxv, hwx]
      have hr : ∀ u ∈ rest, u.vin ≠ vin := by
        intro u hu he
        apply hx
        rw [hxv, ← he]
        exact List.mem_map_of_mem Vehicle.vin hu
      rw [map_upd_id d vin t rest hr]
    · have hwr : w ∈ rest := by
        rcases List.mem_cons.mp hw with h1 | h1
        · exfalso; apply hxv; rw [← h1]; exact hv
        · exact h1
      rw [vehicleUpsert, if_neg hxv, ih hnd2 hwr, List.map_cons, if_neg hxv]

/-! Worker wiring lemmas: the output fields in terms of the loop state. -/

theorem inventoryWorker_total (d : String) (rows : List Row) (mark : Bool) (T : Nat)
    (db : List Vehicle) (t0 : Nat) :
    (inventoryWorker d rows mark T db t0).result.total = T := rfl

theorem inventoryWorker_processed (d : String) (rows : List Row) (mark : Bool) (T : Nat)
    (db : List Vehicle) (t0 : Nat) :
    (inventoryWorker d rows mark T db t0).result.processed =
      (runRows d T (initState db t0) 0 rows).processed := rfl

theorem inventoryWorker_created (d : String) (rows : List Row) (mark : Bool) (T : Nat)
    (db : List Vehicle) (t0 : Nat) :
    (inventoryWorker d rows mark T db t0).result.created =
      (runRows d T (initState db t0) 0 rows).created := rfl

theorem inventoryWorker_updated (d : String) (rows : List Row) (mark : Bool) (T : Nat)
    (db : List Vehicle) (t0 : Nat) :
    (inventoryWorker d rows mark T db t0).result.updated =
      (runRows d T (initState db t0) 0 rows).updated := rfl

theorem inventoryWorker_errors (d : String) (rows : List Row) (mark : Bool) (T : Nat)
    (db : List Vehicle) (t0 : Nat) :
    (inventoryWorker d rows mark T db t0).result.errors =
      (runRows d T (initState db t0) 0 rows).errors := rfl

theorem inventoryWorker_progressLog (d : String) (rows : List Row) (mark : Bool) (T : Nat)
    (db : List Vehicle) (t0 : Nat) :
    (inventoryWorker d rows mark T db t0).progressLog =
      (runRows d T (initState db t0) 0 rows).progressLog := rfl

theorem inventoryWorker_clock (d : String) (rows : List Row) (mark : Bool) (T : Nat)
    (db : List Vehicle) (t0 : Nat) :
    (inventoryWorker d rows mark T db t0).clock =
      (runRows d T (initState db t0) 0 rows).clock := rfl

theorem inventoryWorker_db (d : String) (rows : List Row) (mark : Bool) (T : Nat)
    (db : List Vehicle) (t0 : Nat) :
    (inventoryWorker d rows mark T db t0).db =
      (if mark = true ∧ (runRows d T (initState db t0) 0 rows).seenVins ≠ [] then
        reconcile d (runRows d T (initState db t0) 0 rows).seenVins
          (runRows d T (initState db t0) 0 rows).db
       else ((runRows d T (initState db t0) 0 rows).db, 0)).1 := rfl

theorem inventoryWorker_markedSold (d : String) (rows : List Row) (mark : Bool) (T : Nat)
    (db : List Vehicle) (t0 : Nat) :
    (inventoryWorker d rows mark T db t0).result.markedSold =
      (if mark = true ∧ (runRows d T (initState db t0) 0 rows).seenVins ≠ [] then
        reconcile d (runRows d T (initState db t0) 0 rows).seenVins
          (runRows d T (initState db t0) 0 rows).db
       else ((runRows d T (initState db t0) 0 rows).db, 0)).2 := rfl

theorem mem_addSeen_self (seen : List String) (vin : String) : vin ∈ addSeen seen vin := by
  unfold addSeen
  split
  · assumption
  · exact List.mem_append_right seen (List.mem_singleton.mpr rfl)

theorem countP_processed_range' (T n : Nat) (h : 1 ≤ n) :
    (((List.range' 1 n).map (fun p => (⟨p, T⟩ : Progress))).countP
      (fun p => p.processed == n)) = 1 := by
  rw [List.countP_map]
  have hc : ((fun p => p.processed == n) ∘ fun p => (⟨p, T⟩ : Progress)) =
      fun x => x == n := rfl
  rw [hc]
  have : (List.range' 1 n).count n = 1 :=
    List.count_eq_one_of_mem (List.nodup_range' 1 n)
      (List.mem_range'_1.mpr ⟨h, by omega⟩)
  exact this

/-! Claim theorems. -/

/-- C1: the claim states that inventory-import jobs are not auto-removed on
completion, so polling by identifier still returns state, progress and the
stored Import Result. The code enqueues with `removeOnComplete = true`
(src/lib/queues/inventoryImportQueue.ts), so a completed job is deleted and
the poll route answers 404 — evaluated here at a concrete completed job. -/
theorem c1_completed_import_job_not_pollable :
    enqueueInventoryImportOpts.removeOnComplete = true ∧
    storedAfterCompletion enqueueInventoryImportOpts sampleImportJob sampleImportResult =
      none ∧
    pollImportJob
        (storedAfterCompletion enqueueInventoryImportOpts sampleImportJob
          sampleImportResult) =
      PollResponse.notFound :=
  ⟨rfl, rfl, rfl⟩

/-- C2: for an inventory-import job whose payload satisfies
`totalRows = rows.length` (as the upload route supplies), the completed
result satisfies `created + updated + errors.length = total`, `processed`
equals `totalRows`, and exactly one published progress snapshot has
`processed = totalRows`. -/
theorem c2_result_counts_and_progress (d : String) (rows : List Row) (mark : Bool)
    (T : Nat) (db : List Vehicle) (t0 : Nat) (h1 : T = rows.length) (h2 : rows ≠ []) :
    (inventoryWorker d rows mark T db t0).result.created +
        (inventoryWorker d rows mark T db t0).result.updated +
        (inventoryWorker d rows mark T db t0).result.errors.length =
      (inventoryWorker d rows mark T db t0).result.total ∧
    (inventoryWorker d rows mark T db t0).result.processed = T ∧
    ((inventoryWorker d rows mark T db t0).progressLog.countP
      (fun p => p.processed == T)) = 1 := by
  have hs := runRows_sum d T rows (initState db t0) 0
  have hp := runRows_processed d T rows (initState db t0) 0
  have hl := runRows_progressLog d T rows (initState db t0) 0
  refine ⟨?_, ?_, ?_⟩
  · rw [inventoryWorker_created, inventoryWorker_updated, inventoryWorker_errors,
      inventoryWorker_total, hs, h1]
    simp [initState]
  · rw [inventoryWorker_processed, hp, h1]
    simp [initState]
  · rw [inventoryWorker_progressLog, hl]
    simp only [initState, List.nil_append, Nat.zero_add]
    subst h1
    exact countP_processed_range' rows.length rows.length
      (Nat.one_le_iff_ne_zero.mpr (fun hz => h2 (List.length_eq_zero.mp hz)))

/-- C2 witness: a concrete one-row job with `totalRows = 1`. -/
theorem c2_witness :
    (1 : Nat) = [v1row].length ∧ [v1row] ≠ [] ∧
    ((inventoryWorker "D" [v1row] false 1 [] 0).result.created +
        (inventoryWorker "D" [v1row] false 1 [] 0).result.updated +
        (inventoryWorker "D" [v1row] false 1 [] 0).result.errors.length =
      (inventoryWorker "D" [v1row] false 1 [] 0).result.total ∧
    (inventoryWorker "D" [v1row] false 1 [] 0).result.processed = 1 ∧
    ((inventoryWorker "D" [v1row] false 1 [] 0).progressLog.countP
      (fun p => p.processed == 1)) = 1) :=
  ⟨rfl, by decide, c2_result_counts_and_progress "D" [v1row] false 1 [] 0 rfl (by decide)⟩

/-- C10: the `total` of the result and of every published progress snapshot is
the payload's `totalRows` verbatim, never recomputed; `processed` is the number
of submitted rows, so a payload with `totalRows ≠ rows.length` completes with
`total ≠ processed`. -/
theorem c10_total_is_payload_totalRows (d : String) (rows : List Row) (mark : Bool)
    (T : Nat) (db : List Vehicle) (t0 : Nat) :
    (inventoryWorker d rows mark T db t0).result.total = T ∧
    (∀ p ∈ (inventoryWorker d rows mark T db t0).progressLog, p.total = T) ∧
    (inventoryWorker d rows mark T db t0).result.processed = rows.length ∧
    (T ≠ rows.length →
      (inventoryWorker d rows mark T db t0).result.total ≠
        (inventoryWorker d rows mark T db t0).result.processed) := by
  have hp := runRows_processed d T rows (initState db t0) 0
  have hl := runRows_progressLog d T rows (initState db t0) 0
  have hproc : (inventoryWorker d rows mark T db t0).result.processed = rows.length := by
    rw [inventoryWorker_processed, hp]
    simp [initState]
  refine ⟨rfl, ?_, hproc, ?_⟩
  · intro p hmem
    rw [inventoryWorker_progressLog, hl] at hmem
    simp only [initState, List.nil_append, List.mem_map] at hmem
    obtain ⟨i, _, rfl⟩ := hmem
    rfl
  · intro hne
    rw [inventoryWorker_total, hproc]
    exact hne

/-- C10 witness: `totalRows = 5` with a single submitted row. -/
theorem c10_witness :
    (inventoryWorker "D" [v1row] false 5 [] 0).result.total = 5 ∧
    (inventoryWorker "D" [v1row] false 5 [] 0).result.processed = 1 ∧
    (inventoryWorker "D" [v1row] false 5 [] 0).result.total ≠
      (inventoryWorker "D" [v1row] false 5 [] 0).result.processed ∧
    (Progress.mk 1 5).total = 5 := by
  have h := c10_total_is_payload_totalRows "D" [v1row] false 5 [] 0
  exact ⟨h.1, h.2.2.1, h.2.2.2 (by decide), h.2.1 (Progress.mk 1 5) (by decide)⟩

/-- C6: every row-level exception (missing VIN, invalid condition) is caught
and recorded as a 1-based `{row, error}` entry while processing continues:
the result's errors are exactly the per-row validation failures over all
submitted rows, every submitted row is processed (no exception escapes and no
row aborts the batch), and every recorded index lies in 1..rows.length. -/
theorem c6_row_errors_recorded (d : String) (rows : List Row) (mark : Bool) (T : Nat)
    (db : List Vehicle) (t0 : Nat) :
    (inventoryWorker d rows mark T db t0).result.errors =
      (List.enumFrom 0 rows).filterMap (fun p => rowErrorOf p.1 p.2) ∧
    (inventoryWorker d rows mark T db t0).result.processed = rows.length ∧
    ∀ e ∈ (inventoryWorker d rows mark T db t0).result.errors,
      1 ≤ e.row ∧ e.row ≤ rows.length := by
  have herr : (inventoryWorker d rows mark T db t0).result.errors =
      (List.enumFrom 0 rows).filterMap (fun p => rowErrorOf p.1 p.2) := by
    rw [inventoryWorker_errors, runRows_errors]
    simp [initState]
  have hrow : ∀ (i : Nat) (raw : Row) (e : RowError),
      rowErrorOf i raw = some e → e.row = i + 1 := by
    intro i raw e he
    unfold rowErrorOf at he
    split at he
    · cases he; rfl
    · split at he
      · cases he; rfl
      · cases he
  refine ⟨herr, ?_, ?_⟩
  · rw [inventoryWorker_processed, runRows_processed]
    simp [initState]
  · intro e hmem
    rw [herr] at hmem
    obtain ⟨p, hp, he⟩ := List.mem_filterMap.mp hmem
    have hb := List.fst_lt_add_of_mem_enumFrom hp
    have := hrow p.1 p.2 e he
    omega

/-- C6 witness: the three-row example batch — row 2 misses its VIN, row 3 has
an invalid condition, both are recorded and all three rows are processed. -/
theorem c6_witness :
    (inventoryWorker "D" specRows false 3 [] 0).result.errors =
      [⟨2, "Missing VIN"⟩, ⟨3, "Invalid condition \"bogus\""⟩] ∧
    (inventoryWorker "D" specRows false 3 [] 0).result.processed = 3 ∧
    (1 ≤ (2 : Nat) ∧ (2 : Nat) ≤ specRows.length) := by
  have h := c6_row_errors_recorded "D" specRows false 3 [] 0
  refine ⟨h.1.trans (by decide), h.2.1.trans (by decide), ?_⟩
  have hm : (⟨2, "Missing VIN"⟩ : RowError) ∈
      (inventoryWorker "D" specRows false 3 [] 0).result.errors := by
    rw [h.1]
    decide
  exact h.2.2 ⟨2, "Missing VIN"⟩ hm

/-- C7: for a crm-push job whose external push fails on the final allowed
attempt (`attemptsMade ≥ 3`, attempts exhausted), the lead is written with
`pushedToCRM = false` before the error is re-raised; on a successful push the
lead is marked `pushedToCRM = true`; a job that fails all three attempts
leaves `pushedToCRM = false`. -/
theorem c7_crm_flag_on_failure (lead : Lead) (attemptsMade : Nat) :
    (attemptsMade ≥ crmMaxAttempts →
      (crmProcessAttempt lead true attemptsMade).lead.pushedToCRM = false ∧
      (crmProcessAttempt lead true attemptsMade).failed.isSome = true) ∧
    ((crmProcessAttempt lead false attemptsMade).lead.pushedToCRM = true ∧
      (crmProcessAttempt lead false attemptsMade).failed = none) ∧
    (crmExhaustAttempts lead).pushedToCRM = false := by
  refine ⟨?_, ⟨rfl, rfl⟩, rfl⟩
  intro h
  have h3 : attemptsMade ≥ 3 := h
  constructor
  · simp [crmProcessAttempt, h3]
  · rfl

/-- C7 witness: the third attempt of an always-failing push for a concrete
lead currently flagged true. -/
theorem c7_witness :
    (3 : Nat) ≥ crmMaxAttempts ∧
    (crmProcessAttempt ⟨"L1", true⟩ true 3).lead.pushedToCRM = false ∧
    (crmProcessAttempt ⟨"L1", true⟩ true 3).failed.isSome = true :=
  ⟨by decide, (c7_crm_flag_on_failure ⟨"L1", true⟩ 3).1 (by decide)⟩

/-- C3: with `markMissingAsSold = true` and at least one VIN seen, after the
rows are processed exactly the entries of this dealership that are IN_STOCK
and whose vin is not in seenVins are set to SOLD (every entry is kept, none
deleted), and `markedSold` counts exactly those entries; with the flag false
or no VIN seen, the store is left as the row loop left it and
`markedSold = 0`. -/
theorem c3_reconciliation (d : String) (rows : List Row) (T : Nat) (db : List Vehicle)
    (t0 : Nat) :
    ((runRows d T (initState db t0) 0 rows).seenVins ≠ [] →
      (inventoryWorker d rows true T db t0).db =
        (runRows d T (initState db t0) 0 rows).db.map (fun v =>
          if v.dealershipId = d ∧ v.availability = VehicleAvailability.IN_STOCK ∧
              v.vin ∉ (runRows d T (initState db t0) 0 rows).seenVins
          then { v with availability := VehicleAvailability.SOLD } else v) ∧
      (inventoryWorker d rows true T db t0).result.markedSold =
        (runRows d T (initState db t0) 0 rows).db.countP (fun v =>
          decide (v.dealershipId = d ∧ v.availability = VehicleAvailability.IN_STOCK ∧
            v.vin ∉ (runRows d T (initState db t0) 0 rows).seenVins)) ∧
      (inventoryWorker d rows true T db t0).db.length =
        (runRows d T (initState db t0) 0 rows).db.length) ∧
    (∀ mark : Bool, (mark = false ∨ (runRows d T (initState db t0) 0 rows).seenVins = []) →
      (inventoryWorker d rows mark T db t0).db =
        (runRows d T (initState db t0) 0 rows).db ∧
      (inventoryWorker d rows mark T db t0).result.markedSold = 0) := by
  constructor
  · intro h
    have hcond : (true = true ∧ (runRows d T (initState db t0) 0 rows).seenVins ≠ []) :=
      ⟨rfl, h⟩
    refine ⟨?_, ?_, ?_⟩
    · rw [inventoryWorker_db, if_pos hcond, reconcile_fst]
    · rw [inventoryWorker_markedSold, if_pos hcond, reconcile_snd]
    · rw [inventoryWorker_db, if_pos hcond, reconcile_fst, List.length_map]
  · intro mark hm
    have hcond : ¬ (mark = true ∧ (runRows d T (initState db t0) 0 rows).seenVins ≠ []) := by
      rcases hm with hm | hm
      · intro hc; rw [hm] at hc; cases hc.1
      · intro hc; exact hc.2 hm
    constructor
    · rw [inventoryWorker_db, if_neg hcond]
    · rw [inventoryWorker_markedSold, if_neg hcond]

/-- C3 witness: the spec's scenario — catalog {V1 IN_STOCK, V2 IN_STOCK} for
dealership D, import of V1 only with the flag set: V2 becomes SOLD, V1 stays
IN_STOCK, markedSold = 1. -/
theorem c3_witness :
    (runRows "D" 1 (initState [v1entry, v2entry] 10) 0 [v1row]).seenVins ≠ [] ∧
    (inventoryWorker "D" [v1row] true 1 [v1entry, v2entry] 10).result.markedSold = 1 ∧
    (inventoryWorker "D" [v1row] true 1 [v1entry, v2entry] 10).db.map
        (fun v => (v.vin, v.availability)) =
      [("V1", VehicleAvailability.IN_STOCK), ("V2", VehicleAvailability.SOLD)] ∧
    (inventoryWorker "D" [v1row] false 1 [v1entry, v2entry] 10).result.markedSold = 0 := by
  have h := (c3_reconciliation "D" [v1row] 1 [v1entry, v2entry] 10).1 (by decide)
  have h0 := (c3_reconciliation "D" [v1row] 1 [v1entry, v2entry] 10).2 false (Or.inl rfl)
  refine ⟨by decide, h.2.1.trans (by decide), ?_, h0.2⟩
  rw [h.1]
  decide

/-- C4: for a row whose VIN normalizes to a non-empty string but whose
condition is invalid, the normalized VIN is in seenVins after the row step,
no catalog write occurred (the store is unchanged), the row error is
recorded, and any catalog entry carrying that VIN survives reconciliation
against these seenVins unchanged. -/
theorem c4_seen_before_validation (d : String) (T : Nat) (s : ImportState) (idx : Nat)
    (raw : Row) (h1 : normalizeVin raw.vin ≠ "")
    (h2 : toVehicleCondition raw.condition = none) :
    normalizeVin raw.vin ∈ (rowStep d T s idx raw).seenVins ∧
    (rowStep d T s idx raw).db = s.db ∧
    (rowStep d T s idx raw).errors = s.errors ++
      [⟨idx + 1, "Invalid condition \"" ++ condDisplay raw.condition ++ "\""⟩] ∧
    ∀ (dbx : List Vehicle) (v : Vehicle), v ∈ dbx → v.vin = normalizeVin raw.vin →
      v ∈ (reconcile d (rowStep d T s idx raw).seenVins dbx).1 := by
  have hb := rowBody_eq_error_cond d { s with processed := s.processed + 1 } idx raw h1 h2
  have hstep : rowStep d T s idx raw =
      { s with
        processed := s.processed + 1
        seenVins := addSeen s.seenVins (normalizeVin raw.vin)
        errors := s.errors ++
          [⟨idx + 1, "Invalid condition \"" ++ condDisplay raw.condition ++ "\""⟩]
        progressLog := s.progressLog ++ [⟨s.processed + 1, T⟩]
        clock := s.clock + 1 } := by
    simp only [rowStep, hb]
  rw [hstep]
  refine ⟨mem_addSeen_self s.seenVins (normalizeVin raw.vin), rfl, rfl, ?_⟩
  intro dbx v hv hvin
  rw [reconcile_fst]
  have hf : (if v.dealershipId = d ∧ v.availability = VehicleAvailability.IN_STOCK ∧
      v.vin ∉ addSeen s.seenVins (normalizeVin raw.vin)
      then { v with availability := VehicleAvailability.SOLD } else v) = v := by
    rw [if_neg]
    intro hc
    exact hc.2.2 (hvin ▸ mem_addSeen_self s.seenVins (normalizeVin raw.vin))
  rw [← hf]
  exact List.mem_map_of_mem _ hv

/-- C4 witness: a row with valid VIN "V9" and condition "hybrid" in an empty
store; the VIN lands in seenVins, nothing is written, and a catalog entry
with VIN V9 survives reconciliation. -/
theorem c4_witness :
    normalizeVin badCondRow.vin ≠ "" ∧
    toVehicleCondition badCondRow.condition = none ∧
    normalizeVin badCondRow.vin ∈ (rowStep "D" 1 (initState [] 0) 0 badCondRow).seenVins ∧
    (rowStep "D" 1 (initState [] 0) 0 badCondRow).db = [] ∧
    v9entry ∈ (reconcile "D" (rowStep "D" 1 (initState [] 0) 0 badCondRow).seenVins
      [v9entry]).1 := by
  have h := c4_seen_before_validation "D" 1 (initState [] 0) 0 badCondRow
    (by decide) (by decide)
  exact ⟨by decide, by decide, h.1, h.2.1, h.2.2.2 [v9entry] v9entry (by decide) (by decide)⟩

/-- C5 counterexample: `otherDealerEntry` belongs to dealership E, yet a
D-dealership import containing the same VIN updates that very entry and
reassigns it to D (classified as an update, not a create) — so a VIN held by
a different dealership IS taken over, refuting the claim. -/
theorem c5_counterexample :
    otherDealerEntry.dealershipId = "E" ∧
    otherDealerEntry.vin = "VINX" ∧
    normalizeVin takeoverRow.vin = "VINX" ∧
    (inventoryWorker "D" [takeoverRow] false 1 [otherDealerEntry] 5).db.map
        (fun v => (v.vin, v.dealershipId)) = [("VINX", "D")] ∧
    (inventoryWorker "D" [takeoverRow] false 1 [otherDealerEntry] 5).result.updated = 1 ∧
    (inventoryWorker "D" [takeoverRow] false 1 [otherDealerEntry] 5).result.created = 0 := by
  decide

/-- C5 amended: the catalog is keyed by VIN alone, globally across
dealerships. When the VIN is absent the upsert appends a fresh entry owned by
the importing dealership; when any entry (of any dealership) carries the VIN,
that entry is updated in place — descriptive fields overwritten, availability
forced IN_STOCK, and its `dealershipId` reassigned to the importing
dealership — no entry is added, and per-VIN uniqueness is preserved. -/
theorem c5_amended_vin_keyed_upsert (D : String) (raw : Row) (c : VehicleCondition)
    (price : Option Int) (imgs : List String) (vin : String) (t : Nat)
    (db : List Vehicle) (hnd : (db.map Vehicle.vin).Nodup) :
    ((∀ w ∈ db, w.vin ≠ vin) →
      (vehicleUpsert (mkUpsertData D raw c price imgs) vin t db).1 =
        db ++ [createVehicle (mkUpsertData D raw c price imgs) vin t] ∧
      (createVehicle (mkUpsertData D raw c price imgs) vin t).dealershipId = D ∧
      ((vehicleUpsert (mkUpsertData D raw c price imgs) vin t db).1.map
        Vehicle.vin).Nodup) ∧
    (∀ w ∈ db, w.vin = vin →
      (vehicleUpsert (mkUpsertData D raw c price imgs) vin t db).1 =
        db.map (fun u => if u.vin = vin then
          applyVehicleUpdate (mkUpsertData D raw c price imgs) t u else u) ∧
      (vehicleUpsert (mkUpsertData D raw c price imgs) vin t db).2 =
        applyVehicleUpdate (mkUpsertData D raw c price imgs) t w ∧
      (vehicleUpsert (mkUpsertData D raw c price imgs) vin t db).1.length = db.length ∧
      (applyVehicleUpdate (mkUpsertData D raw c price imgs) t w).dealershipId = D ∧
      (applyVehicleUpdate (mkUpsertData D raw c price imgs) t w).vin = w.vin ∧
      (applyVehicleUpdate (mkUpsertData D raw c price imgs) t w).availability =
        VehicleAvailability.IN_STOCK ∧
      ((vehicleUpsert (mkUpsertData D raw c price imgs) vin t db).1.map
        Vehicle.vin).Nodup) := by
  constructor
  · intro h
    rw [vehicleUpsert_absent (mkUpsertData D raw c price imgs) vin t db h]
    refine ⟨rfl, rfl, ?_⟩
    rw [List.map_append]
    refine List.Nodup.append hnd (List.nodup_singleton _) ?_
    intro a ha hb
    have hv : a = vin := by
      have := List.mem_singleton.mp hb
      simpa [createVehicle] using this
    obtain ⟨w, hw, hwv⟩ := List.mem_map.mp ha
    exact h w hw (hwv.trans hv)
  · intro w hw hv
    rw [vehicleUpsert_present (mkUpsertData D raw c price imgs) vin t db w hnd hw hv]
    have hvins : (db.map (fun u => if u.vin = vin then
        applyVehicleUpdate (mkUpsertData D raw c price imgs) t u else u)).map Vehicle.vin =
        db.map Vehicle.vin := by
      rw [List.map_map]
      apply List.map_congr_left
      intro u _
      by_cases hu : u.vin = vin
      · simp [Function.comp, hu, applyVehicleUpdate_vin]
      · simp [Function.comp, hu]
    exact ⟨rfl, rfl, List.length_map db _, rfl, rfl, rfl, by rw [hvins]; exact hnd⟩

/-- C5 amended witness: dealership D imports the VIN owned by dealership E;
the single existing entry is updated in place and taken over. -/
theorem c5_amended_witness :
    ([otherDealerEntry].map Vehicle.vin).Nodup ∧
    otherDealerEntry.vin = "VINX" ∧
    (vehicleUpsert (mkUpsertData "D" takeoverRow VehicleCondition.USED none [])
        "VINX" 5 [otherDealerEntry]).1.length = 1 ∧
    (applyVehicleUpdate (mkUpsertData "D" takeoverRow VehicleCondition.USED none [])
        5 otherDealerEntry).dealershipId = "D" ∧
    (applyVehicleUpdate (mkUpsertData "D" takeoverRow VehicleCondition.USED none [])
        5 otherDealerEntry).vin = otherDealerEntry.vin ∧
    (vehicleUpsert (mkUpsertData "D" takeoverRow VehicleCondition.USED none [])
        "VINX" 5 []).1 =
      [createVehicle (mkUpsertData "D" takeoverRow VehicleCondition.USED none [])
        "VINX" 5] := by
  have h := (c5_amended_vin_keyed_upsert "D" takeoverRow VehicleCondition.USED none []
    "VINX" 5 [otherDealerEntry] (by decide)).2 otherDealerEntry (by decide) (by decide)
  have h2 := (c5_amended_vin_keyed_upsert "D" takeoverRow VehicleCondition.USED none []
    "VINX" 5 [] (by decide)).1 (fun w hw => nomatch hw)
  exact ⟨by decide, by decide, h.2.2.1, h.2.2.2.1, h.2.2.2.2.1, h2.1⟩

/-- C8: the claim states required header columns are matched case- and
whitespace-insensitively. The code compares the normalized header against the
raw required name, so every required name containing a lowercase letter (all
but VIN) never matches any header: even the exact documented header row is
reported missing and the upload is rejected with 400 before any enqueue,
although every required column is present under genuine case-insensitive
matching. -/
theorem c8_upload_always_rejected :
    missingColumns (headerColumns [canonicalCsvRecord]) =
      ["Stock#", "Year", "Make", "Model", "Trim", "Condition", "Price",
       "Mileage", "Color", "BodyType", "Images"] ∧
    uploadPost "d" false (some [canonicalCsvRecord]) =
      UploadOutcome.badRequest "Missing required columns" ∧
    (REQUIRED_COLUMNS.all fun c =>
      (headerColumns [canonicalCsvRecord]).any fun h =>
        normalizeColumn h == normalizeColumn c) = true := by
  decide

/-! Lemmas for a single valid row, used for the idempotence claim. -/

theorem rowUpsert_processed (d : String) (raw : Row) (c : VehicleCondition)
    (s : ImportState) (p : Nat) :
    rowUpsert d raw c { s with processed := p } = rowUpsert d raw c s := rfl

theorem rowStep_valid_created (d : String) (T : Nat) (s : ImportState) (idx : Nat)
    (raw : Row) (c : VehicleCondition) (h2 : normalizeVin raw.vin ≠ "")
    (h3 : toVehicleCondition raw.condition = some c)
    (hc : (rowUpsert d raw c s).2.createdAt = (rowUpsert d raw c s).2.updatedAt) :
    rowStep d T s idx raw =
      { s with
        processed := s.processed + 1
        seenVins := addSeen s.seenVins (normalizeVin raw.vin)
        db := (rowUpsert d raw c s).1
        created := s.created + 1
        progressLog := s.progressLog ++ [⟨s.processed + 1, T⟩]
        clock := s.clock + 1 } := by
  simp only [rowStep]
  rw [rowBody_eq_upsert d { s with processed := s.processed + 1 } idx raw c h2 h3,
    rowUpsert_processed, if_pos hc]

theorem rowStep_valid_updated (d : String) (T : Nat) (s : ImportState) (idx : Nat)
    (raw : Row) (c : VehicleCondition) (h2 : normalizeVin raw.vin ≠ "")
    (h3 : toVehicleCondition raw.condition = some c)
    (hc : ¬ (rowUpsert d raw c s).2.createdAt = (rowUpsert d raw c s).2.updatedAt) :
    rowStep d T s idx raw =
      { s with
        processed := s.processed + 1
        seenVins := addSeen s.seenVins (normalizeVin raw.vin)
        db := (rowUpsert d raw c s).1
        updated := s.updated + 1
        progressLog := s.progressLog ++ [⟨s.processed + 1, T⟩]
        clock := s.clock + 1 } := by
  simp only [rowStep]
  rw [rowBody_eq_upsert d { s with processed := s.processed + 1 } idx raw c h2 h3,
    rowUpsert_processed, if_neg hc]

theorem runRows_single (d : String) (T : Nat) (s : ImportState) (idx : Nat) (raw : Row) :
    runRows d T s idx [raw] = rowStep d T s idx raw := rfl

theorem c9aux_first (D V : String) (row1 : Row) (c1 : VehicleCondition)
    (db : List Vehicle) (t0 : Nat) (h1 : normalizeVin row1.vin = V) (h2 : V ≠ "")
    (h3 : toVehicleCondition row1.condition = some c1) (h4 : ∀ w ∈ db, w.vin ≠ V) :
    (inventoryWorker D [row1] false 1 db t0).result.created = 1 ∧
    (inventoryWorker D [row1] false 1 db t0).result.updated = 0 ∧
    (inventoryWorker D [row1] false 1 db t0).db =
      db ++ [createVehicle
        (mkUpsertData D row1 c1 row1.price (row1.images.filter (fun u => u != ""))) V t0] ∧
    (inventoryWorker D [row1] false 1 db t0).clock = t0 + 1 := by
  have hup : rowUpsert D row1 c1 (initState db t0) =
      (db ++ [createVehicle
        (mkUpsertData D row1 c1 row1.price (row1.images.filter (fun u => u != ""))) V t0],
       createVehicle
        (mkUpsertData D row1 c1 row1.price (row1.images.filter (fun u => u != ""))) V t0) := by
    show vehicleUpsert
        (mkUpsertData D row1 c1 row1.price (row1.images.filter (fun u => u != "")))
        (normalizeVin row1.vin) t0 db = _
    rw [h1]
    exact vehicleUpsert_absent _ V t0 db h4
  have hc : (rowUpsert D row1 c1 (initState db t0)).2.createdAt =
      (rowUpsert D row1 c1 (initState db t0)).2.updatedAt := by
    rw [hup]
    rfl
  have hrun : runRows D 1 (initState db t0) 0 [row1] =
      { initState db t0 with
        processed := (initState db t0).processed + 1
        seenVins := addSeen (initState db t0).seenVins (normalizeVin row1.vin)
        db := (rowUpsert D row1 c1 (initState db t0)).1
        created := (initState db t0).created + 1
        progressLog := (initState db t0).progressLog ++
          [⟨(initState db t0).processed + 1, 1⟩]
        clock := (initState db t0).clock + 1 } := by
    rw [runRows_single]
    exact rowStep_valid_created D 1 (initState db t0) 0 row1 c1
      (by rw [h1]; exact h2) h3 hc
  have hcond : ¬ (false = true ∧
      (runRows D 1 (initState db t0) 0 [row1]).seenVins ≠ []) :=
    fun hx => Bool.false_ne_true hx.1
  refine ⟨?_, ?_, ?_, ?_⟩
  · rw [inventoryWorker_created, hrun]
    rfl
  · rw [inventoryWorker_updated, hrun]
    rfl
  · rw [inventoryWorker_db, if_neg hcond, hrun]
    show (rowUpsert D row1 c1 (initState db t0)).1 = _
    rw [hup]
  · rw [inventoryWorker_clock, hrun]
    rfl

theorem c9aux_second (D V : String) (row2 : Row) (c2 : VehicleCondition)
    (db : List Vehicle) (v0 : Vehicle) (t1 : Nat) (h2 : V ≠ "")
    (h5 : normalizeVin row2.vin = V)
    (h6 : toVehicleCondition row2.condition = some c2) (h4 : ∀ w ∈ db, w.vin ≠ V)
    (h0 : v0.vin = V) (hct : v0.createdAt ≠ t1) :
    (inventoryWorker D [row2] false 1 (db ++ [v0]) t1).result.created = 0 ∧
    (inventoryWorker D [row2] false 1 (db ++ [v0]) t1).result.updated = 1 ∧
    (inventoryWorker D [row2] false 1 (db ++ [v0]) t1).db =
      db ++ [applyVehicleUpdate
        (mkUpsertData D row2 c2 row2.price (row2.images.filter (fun u => u != ""))) t1 v0] := by
  have hup : rowUpsert D row2 c2 (initState (db ++ [v0]) t1) =
      (db ++ [applyVehicleUpdate
        (mkUpsertData D row2 c2 row2.price (row2.images.filter (fun u => u != ""))) t1 v0],
       applyVehicleUpdate
        (mkUpsertData D row2 c2 row2.price (row2.images.filter (fun u => u != ""))) t1 v0) := by
    show vehicleUpsert
        (mkUpsertData D row2 c2 row2.price (row2.images.filter (fun u => u != "")))
        (normalizeVin row2.vin) t1 (db ++ [v0]) = _
    rw [h5]
    exact vehicleUpsert_append_absent _ V t1 db v0 h4 h0
  have hc : ¬ (rowUpsert D row2 c2 (initState (db ++ [v0]) t1)).2.createdAt =
      (rowUpsert D row2 c2 (initState (db ++ [v0]) t1)).2.updatedAt := by
    rw [hup]
    exact hct
  have hrun : runRows D 1 (initState (db ++ [v0]) t1) 0 [row2] =
      { initState (db ++ [v0]) t1 with
        processed := (initState (db ++ [v0]) t1).processed + 1
        seenVins := addSeen (initState (db ++ [v0]) t1).seenVins (normalizeVin row2.vin)
        db := (rowUpsert D row2 c2 (initState (db ++ [v0]) t1)).1
        updated := (initState (db ++ [v0]) t1).updated + 1
        progressLog := (initState (db ++ [v0]) t1).progressLog ++
          [⟨(initState (db ++ [v0]) t1).processed + 1, 1⟩]
        clock := (initState (db ++ [v0]) t1).clock + 1 } := by
    rw [runRows_single]
    exact rowStep_valid_updated D 1 (initState (db ++ [v0]) t1) 0 row2 c2
      (by rw [h5]; exact h2) h6 hc
  have hcond : ¬ (false = true ∧
      (runRows D 1 (initState (db ++ [v0]) t1) 0 [row2]).seenVins ≠ []) :=
    fun hx => Bool.false_ne_true hx.1
  refine ⟨?_, ?_, ?_⟩
  · rw [inventoryWorker_created, hrun]
    rfl
  · rw [inventoryWorker_updated, hrun]
    rfl
  · rw [inventoryWorker_db, if_neg hcond, hrun]
    show (rowUpsert D row2 c2 (initState (db ++ [v0]) t1)).1 = _
    rw [hup]

/-- C9: importing rows with the same normalized VIN in two separate jobs is
idempotent per VIN: the first run (VIN absent from the catalog) yields
created = 1, updated = 0; the second run against the resulting catalog and
clock yields created = 0, updated = 1 against the same single entry (no new
entry appears); and trim + uppercase normalization sends "  abc123  " and
"ABC123" to the same catalog key. -/
theorem c9_idempotent_per_vin (D V : String) (row1 row2 : Row)
    (c1 c2 : VehicleCondition) (db : List Vehicle) (t0 : Nat)
    (h1 : normalizeVin row1.vin = V) (h2 : V ≠ "")
    (h3 : toVehicleCondition row1.condition = some c1)
    (h4 : ∀ w ∈ db, w.vin ≠ V)
    (h5 : normalizeVin row2.vin = V)
    (h6 : toVehicleCondition row2.condition = some c2) :
    (inventoryWorker D [row1] false 1 db t0).result.created = 1 ∧
    (inventoryWorker D [row1] false 1 db t0).result.updated = 0 ∧
    (inventoryWorker D [row2] false 1 (inventoryWorker D [row1] false 1 db t0).db
        (inventoryWorker D [row1] false 1 db t0).clock).result.created = 0 ∧
    (inventoryWorker D [row2] false 1 (inventoryWorker D [row1] false 1 db t0).db
        (inventoryWorker D [row1] false 1 db t0).clock).result.updated = 1 ∧
    (inventoryWorker D [row2] false 1 (inventoryWorker D [row1] false 1 db t0).db
        (inventoryWorker D [row1] false 1 db t0).clock).db.length =
      (inventoryWorker D [row1] false 1 db t0).db.length ∧
    (inventoryWorker D [row1] false 1 db t0).db.length = db.length + 1 ∧
    normalizeVin (some "  abc123  ") = normalizeVin (some "ABC123") := by
  obtain ⟨hA, hB, hdb1, hck1⟩ := c9aux_first D V row1 c1 db t0 h1 h2 h3 h4
  have hsec := c9aux_second D V row2 c2 db
    (createVehicle (mkUpsertData D row1 c1 row1.price
      (row1.images.filter (fun u => u != ""))) V t0) (t0 + 1) h2 h5 h6 h4 rfl
    (Nat.ne_of_lt (Nat.lt_succ_self t0))
  refine ⟨hA, hB, ?_, ?_, ?_, ?_, by decide⟩
  · rw [hdb1, hck1]
    exact hsec.1
  · rw [hdb1, hck1]
    exact hsec.2.1
  · rw [hdb1, hck1, hsec.2.2]
    simp
  · rw [hdb1]
    simp

/-- C9 witness: "  abc123  " imported into an empty catalog, then "ABC123"
run against the result. -/
theorem c9_witness :
    normalizeVin idemRow1.vin = "ABC123" ∧
    normalizeVin idemRow2.vin = "ABC123" ∧
    (inventoryWorker "D" [idemRow1] false 1 [] 0).result.created = 1 ∧
    (inventoryWorker "D" [idemRow2] false 1 (inventoryWorker "D" [idemRow1] false 1 [] 0).db
        (inventoryWorker "D" [idemRow1] false 1 [] 0).clock).result.created = 0 ∧
    (inventoryWorker "D" [idemRow2] false 1 (inventoryWorker "D" [idemRow1] false 1 [] 0).db
        (inventoryWorker "D" [idemRow1] false 1 [] 0).clock).result.updated = 1 ∧
    (inventoryWorker "D" [idemRow2] false 1 (inventoryWorker "D" [idemRow1] false 1 [] 0).db
        (inventoryWorker "D" [idemRow1] false 1 [] 0).clock).db.length = 1 := by
  have h := c9_idempotent_per_vin "D" "ABC123" idemRow1 idemRow2
    VehicleCondition.NEW VehicleCondition.NEW [] 0 (by decide) (by decide) (by decide)
    (fun w hw => nomatch hw) (by decide) (by decide)
  refine ⟨by decide, by decide, h.1, h.2.2.1, h.2.2.2.1, ?_⟩
  rw [h.2.2.2.2.1, h.2.2.2.2.2.1]
  rfl

end DealerJobs
